import Mathlib

/-!
Verification of the pre-commit validation pipeline implemented in
`scripts/pre_commit_check.py`.

The script is shallowly embedded: JSON configuration values become the
inductive `JVal` (Python `d[k]` indexing raises `KeyError`, modelled with
`Except String`; `d.get(k, default)` is total), external subprocess calls
become environment records holding each call's `(returncode, stdout, stderr)`
triple, and the orchestrator `run_all_checks` becomes a fold over a list of
per-check behaviours that records every evaluation, confirmation prompt and
fixer invocation.  String manipulation is implemented over `List Char` so
that every definition evaluates inside the kernel; where Python applies
Unicode lowercasing the embedding lowers ASCII letters, which agrees on all
inputs used here.
-/

/-! ## String helpers over `List Char` -/

/-- `hay` begins with `needle` (prefix test on character lists). -/
def beginsWith : List Char → List Char → Bool
  | [], _ => true
  | _ :: _, [] => false
  | a :: as, b :: bs => a == b && beginsWith as bs

/-- `needle` occurs somewhere in `hay`. -/
def containsChars (needle : List Char) : List Char → Bool
  | [] => beginsWith needle []
  | c :: cs => beginsWith needle (c :: cs) || containsChars needle cs

/-- Python `needle in hay` on strings. -/
def containsSub (needle hay : String) : Bool :=
  containsChars needle.data hay.data

/-- Python `s.startswith(p)`. -/
def startsWithS (s p : String) : Bool := beginsWith p.data s.data

/-- Whitespace stripped from both ends (Python `s.strip()`). -/
def trimChars (cs : List Char) : List Char :=
  ((cs.dropWhile Char.isWhitespace).reverse.dropWhile Char.isWhitespace).reverse

/-- Python `s.strip()`. -/
def trimS (s : String) : String := String.mk (trimChars s.data)

/-- ASCII lowercasing of one character. -/
def lowerChar (c : Char) : Char :=
  if 'A' ≤ c && c ≤ 'Z' then Char.ofNat (c.toNat + 32) else c

/-- Python `s.lower()` (ASCII letters). -/
def lowerS (s : String) : String := String.mk (s.data.map lowerChar)

/-- Split on `'\n'`; always yields at least one piece, as Python
`s.split('\n')` does. -/
def splitNl : List Char → List (List Char)
  | [] => [[]]
  | c :: cs =>
    match splitNl cs with
    | l :: ls => if c == '\n' then [] :: l :: ls else (c :: l) :: ls
    | [] => [[]]

/-- Python `s.split('\n')`. -/
def linesOf (s : String) : List String := (splitNl s.data).map String.mk

/-- Python truthiness of a string (`if s`). -/
def strEmpty (s : String) : Bool := s.data.isEmpty

/-- Python `sep.join(xs)`. -/
def joinSep (sep : String) : List String → String
  | [] => ""
  | [x] => x
  | x :: xs => x ++ sep ++ joinSep sep xs

/-! ## The configuration model -/

/-- A JSON value, as `json.load` produces for the configuration file. -/
inductive JVal where
  | null : JVal
  | bool (b : Bool) : JVal
  | num (n : Int) : JVal
  | str (s : String) : JVal
  | arr (xs : List JVal) : JVal
  | obj (fields : List (String × JVal)) : JVal

/-- Python truthiness of a JSON value (`if not v`). -/
def JVal.truthy : JVal → Bool
  | .null => false
  | .bool b => b
  | .num n => n != 0
  | .str s => !strEmpty s
  | .arr xs => !xs.isEmpty
  | .obj fs => !fs.isEmpty

/-- Python `d[k]`: the value at key `k`, or a `KeyError` (`TypeError` when the
value is not a dict). -/
def JVal.index : JVal → String → Except String JVal
  | .obj fs, k =>
    match fs.lookup k with
    | some v => .ok v
    | none => .error ("KeyError: " ++ k)
  | _, _ => .error "TypeError: not a dict"

/-- Python `d.get(k, dflt)`. -/
def JVal.get (v : JVal) (k : String) (dflt : JVal) : JVal :=
  match v with
  | .obj fs => (fs.lookup k).getD dflt
  | _ => dflt

/-- A chain of Python index operations `v[k1][k2]...`. -/
def jpath (v : JVal) : List String → Except String JVal
  | [] => .ok v
  | k :: ks =>
    match v.index k with
    | .ok w => jpath w ks
    | .error e => .error e

/-- Python iteration over a value expected to yield strings (as in
`",".join(xs)` or `for f in xs`): a list must hold strings, a string yields
its characters, a dict its keys; anything else raises `TypeError`. -/
def pyStrList : List JVal → Except String (List String)
  | [] => .ok []
  | x :: xs =>
    match x, pyStrList xs with
    | .str s, .ok l => .ok (s :: l)
    | _, .ok _ => .error "TypeError: expected str"
    | _, .error e => .error e

def pyIterStrs : JVal → Except String (List String)
  | .arr xs => pyStrList xs
  | .str s => .ok (s.data.map fun c => String.mk [c])
  | .obj fs => .ok (fs.map (·.1))
  | _ => .error "TypeError: not iterable"

/-- Python `needle in v` for a string needle: list membership, substring of a
string, key of a dict; `TypeError` otherwise. -/
def jContains (needle : String) : JVal → Except String Bool
  | .arr xs =>
    .ok (xs.any fun x => match x with | .str s => s == needle | _ => false)
  | .str s => .ok (containsSub needle s)
  | .obj fs => .ok (fs.any (·.1 == needle))
  | _ => .error "TypeError: argument is not iterable"

/-! ## ProcessRunner and Confirmer -/

/-- The result of one external command: `(returncode, stdout, stderr)`. -/
structure CmdResult where
  code : Int
  out : String
  err : String
deriving Repr, DecidableEq

/-- How the subprocess behaves when `_run_command` launches it: it completes
with a result, exceeds the timeout budget (`subprocess.TimeoutExpired`), or
raises some other launch error (the generic `except Exception` arm). -/
inductive ProcBehavior where
  | completes (r : CmdResult)
  | timesOut
  | raises (msg : String)
deriving Repr, DecidableEq

/-- `PreCommitChecker._run_command` (lines 122-145): every behaviour of the
child process is converted into a plain result triple; a timeout becomes
`(-1, "", "Commande expirée après {timeout}s")` and any launch exception
becomes `(-1, "", str(e))`.  No exception escapes. -/
def _run_command (timeout : Nat) : ProcBehavior → CmdResult
  | .completes r => r
  | .timesOut => ⟨-1, "", "Commande expirée après " ++ toString timeout ++ "s"⟩
  | .raises m => ⟨-1, "", m⟩

/-- What the operator does at an interactive confirmation prompt: types a
line, closes the input (`EOFError`), or interrupts (`KeyboardInterrupt`). -/
inductive ConfirmInput where
  | line (s : String)
  | eof
  | interrupt
deriving Repr, DecidableEq

/-- The affirmative answers of `_confirm` (line 154):
`response in ('', 'o', 'oui', 'y', 'yes')` after strip+lower. -/
def answerAffirmative (s : String) : Bool :=
  let r := lowerS (trimS s)
  r == "" || r == "o" || r == "oui" || r == "y" || r == "yes"

/-- `PreCommitChecker._confirm` (lines 147-157): in non-interactive mode the
configured `auto_fix` default is returned without reading input; in
interactive mode an affirmative line answers true, and end-of-input or an
interrupt is caught and answered false. -/
def _confirm (interactive autoFix : Bool) (inp : ConfirmInput) : Bool :=
  if !interactive then autoFix
  else
    match inp with
    | .line s => answerAffirmative s
    | .eof => false
    | .interrupt => false

/-- `install_tool` (lines 177-189): confirmation gates a `pip install`; true
when confirmed and pip exited 0. -/
def install_tool (interactive autoFix : Bool) (answer : ConfirmInput) (pipRet : CmdResult) : Bool :=
  if _confirm interactive autoFix answer then pipRet.code == 0 else false

/-! ## Configuration loading -/

/-- `PreCommitChecker._default_config` (lines 106-120). -/
def _default_config : JVal :=
  .obj
    [("strict_mode", .bool true),
     ("auto_fix", .bool true),
     ("interactive", .bool true),
     ("checks",
      .obj
        [("linter", .obj [("enabled", .bool true)]),
         ("tests", .obj [("enabled", .bool true)]),
         ("django", .obj [("enabled", .bool true)]),
         ("security", .obj [("enabled", .bool true)]),
         ("files", .obj [("enabled", .bool true)]),
         ("git", .obj [("enabled", .bool true), ("conventional_commits", .bool true)])])]

/-- The state of the configuration file on disk. -/
inductive ConfigFile where
  | missing
  | malformed
  | parsed (v : JVal)

/-- `PreCommitChecker._load_config` (lines 93-104): a missing file falls back
to the built-in defaults, a malformed file exits the process with code 1. -/
def _load_config : ConfigFile → Except Nat JVal
  | .missing => .ok _default_config
  | .malformed => .error 1
  | .parsed v => .ok v

/-- The three mode flags resolved in `__init__` (lines 88-90) via
`config.get(..., True)`: `(strict_mode, auto_fix, interactive)`. -/
def initFlags (cfg : JVal) : Bool × Bool × Bool :=
  ((cfg.get "strict_mode" (.bool true)).truthy,
   (cfg.get "auto_fix" (.bool true)).truthy,
   (cfg.get "interactive" (.bool true)).truthy)

/-! ## CheckResult and the check implementations -/

/-- `CheckResult` (lines 62-76). -/
structure CheckResult where
  name : String
  passed : Bool
  message : String := ""
  can_fix : Bool := false
  fix_command : String := ""
  details : List String := []
deriving Repr, DecidableEq

/-- The subprocess results `check_linter` consumes. -/
structure LinterEnv where
  flake8Installed : Bool
  installAnswer : ConfirmInput
  pipInstallRet : CmdResult
  flake8Ret : CmdResult
  blackInstalled : Bool
deriving Repr, DecidableEq

/-- `check_linter` (lines 191-238). -/
def check_linter (cfg : JVal) (interactive autoFix : Bool) (env : LinterEnv) :
    Except String CheckResult :=
  match jpath cfg ["checks", "linter", "enabled"] with
  | .error e => .error e
  | .ok enabled =>
  if !enabled.truthy then .ok { name := "Linter", passed := true, message := "Désactivé" }
  else
  if !env.flake8Installed
      && !install_tool interactive autoFix env.installAnswer env.pipInstallRet then
    .ok { name := "Linter", passed := false, message := "Flake8 non installé" }
  else
  match jpath cfg ["checks", "linter", "exclude"] with
  | .error e => .error e
  | .ok excludeVal =>
  match pyIterStrs excludeVal with
  | .error e => .error e
  | .ok _exclude =>
  match jpath cfg ["checks", "linter", "max_line_length"] with
  | .error e => .error e
  | .ok _mll =>
  let r := env.flake8Ret
  if r.code == 0 then .ok { name := "Linter", passed := true, message := "Aucune erreur détectée" }
  else
  let errors := if !strEmpty r.out then linesOf (trimS r.out) else []
  let error_count := (errors.filter fun e => !strEmpty (trimS e)).length
  let details := [toString error_count ++ " erreur(s) de style détectée(s)",
                  "Exemples d'erreurs :"] ++ errors.take 5
  if env.blackInstalled then
    .ok { name := "Linter", passed := false,
          message := toString error_count ++ " erreurs de style",
          can_fix := true, fix_command := "black .", details := details }
  else
    .ok { name := "Linter", passed := false,
          message := toString error_count ++ " erreurs de style", details := details }

/-- The subprocess results `check_tests` consumes. -/
structure TestsEnv where
  testRet : CmdResult
deriving Repr, DecidableEq

/-- The detail-collecting loop of `check_tests` (lines 295-300): each line
starting `FAIL:` or `ERROR:` is kept together with its successor line. -/
def collectFails : List String → List String
  | [] => []
  | [l] => if startsWithS l "FAIL:" || startsWithS l "ERROR:" then [l] else []
  | l :: next :: rest =>
    (if startsWithS l "FAIL:" || startsWithS l "ERROR:" then [l, next] else [])
      ++ collectFails (next :: rest)

/-- `check_tests` (lines 271-303); the test command runs with `timeout=120`. -/
def check_tests (cfg : JVal) (env : TestsEnv) : Except String CheckResult :=
  match jpath cfg ["checks", "tests", "enabled"] with
  | .error e => .error e
  | .ok enabled =>
  if !enabled.truthy then .ok { name := "Tests", passed := true, message := "Désactivés" }
  else
  match jpath cfg ["checks", "tests"] with
  | .error e => .error e
  | .ok testsCfg =>
  let _test_module := testsCfg.get "test_module" (.str "")
  let r := env.testRet
  if r.code == 0 then
    let test_count := ((linesOf r.out).filter fun line =>
      containsSub "test" (lowerS line) && containsSub "ok" (lowerS line)).length
    .ok { name := "Tests", passed := true,
          message := "Tous les tests passent (" ++ toString test_count ++ " tests)" }
  else
  let details :=
    if containsSub "FAIL" r.out || containsSub "ERROR" r.out then collectFails (linesOf r.out)
    else []
  .ok { name := "Tests", passed := false, message := "Certains tests ont échoué",
        details := details.take 10 }

/-- The subprocess results and prompt reply `check_django` consumes. -/
structure DjangoEnv where
  checkRet : CmdResult
  deployRet : CmdResult
  migrateCheckRet : CmdResult
  confirmAnswer : ConfirmInput
  makemigrationsRet : CmdResult
deriving Repr, DecidableEq

/-- `check_django` (lines 305-352).  Besides its result it returns the
checker's `fixes_applied` list, to which the auto-migrate path appends
`"Migrations créées"` (line 344). -/
def check_django (cfg : JVal) (interactive autoFix : Bool) (env : DjangoEnv)
    (fixes_applied : List String) : Except String (CheckResult × List String) :=
  match jpath cfg ["checks", "django", "enabled"] with
  | .error e => .error e
  | .ok enabled =>
  if !enabled.truthy then
    .ok ({ name := "Django", passed := true, message := "Désactivé" }, fixes_applied)
  else
  if env.checkRet.code != 0 then
    .ok ({ name := "Django", passed := false, message := "Erreurs dans la configuration",
           details := [if !strEmpty env.checkRet.err then env.checkRet.err
                       else env.checkRet.out] }, fixes_applied)
  else
  match jpath cfg ["checks", "django"] with
  | .error e => .error e
  | .ok dj =>
  if (dj.get "check_deploy" (.bool false)).truthy && env.deployRet.code != 0 then
    let warnings := (linesOf (env.deployRet.out ++ env.deployRet.err)).filter fun line =>
      containsSub "WARNING" line || containsSub "ERROR" line
    .ok ({ name := "Django", passed := false,
           message := "Problèmes de configuration production",
           details := warnings.take 5 }, fixes_applied)
  else
  if (dj.get "check_migrations" (.bool true)).truthy && env.migrateCheckRet.code != 0 then
    if (dj.get "auto_migrate" (.bool false)).truthy
        && _confirm interactive autoFix env.confirmAnswer
        && env.makemigrationsRet.code == 0 then
      .ok ({ name := "Django", passed := true,
             message := "Configuration OK, migrations créées" },
           fixes_applied ++ ["Migrations créées"])
    else
      .ok ({ name := "Django", passed := false, message := "Migrations manquantes",
             can_fix := true,
             details := ["Exécutez: python manage.py makemigrations"] }, fixes_applied)
  else
  .ok ({ name := "Django", passed := true, message := "Configuration Django OK" }, fixes_applied)

/-- One sub-scan entry of `check_security`'s `results` list: the tuples
`(name, ok, msg)` or `(name, ok, msg, details)` of lines 377-430. -/
structure SubScan where
  name : String
  ok : Bool
  msg : String
  extra : Option (List String) := none
deriving Repr, DecidableEq

/-- The subprocess results `check_security` consumes.  `banditInstalled` /
`safetyInstalled` are the second `check_tool_installed` calls (after a
possible install attempt); `patternsFound` is what the filesystem regex scan
of `_check_dangerous_patterns` collects before truncation. -/
structure SecurityEnv where
  banditInstalled : Bool
  banditRet : CmdResult
  safetyInstalled : Bool
  safetyRet : CmdResult
  safetyVulns : Option (List (String × String))
  baselineExists : Bool
  secretsRet : CmdResult
  patternsFound : List String
deriving Repr, DecidableEq

/-- The `try: json.loads ... except:` block of the Safety sub-scan (lines
392-397): `parsed` holds the `(package, vulnerability)` pairs when parsing
and formatting succeed, `none` when the bare `except` fires. -/
def safetyDetails (out : String) (parsed : Option (List (String × String))) : List String :=
  if strEmpty out then []
  else
    match parsed with
    | some vulns => (vulns.take 5).map fun pv => pv.1 ++ ": " ++ pv.2
    | none => [if !strEmpty out then out else "Vulnérabilités détectées"]

/-- `_check_dangerous_patterns` (lines 446-476): the regex scan over the
working tree is an input boundary here; `found` is the list of
`"{file}: {description}"` matches the loop collects, and the function keeps
the first 10. -/
def _check_dangerous_patterns (found : List String) : List String := found.take 10

/-- `check_security` (lines 354-444). -/
def check_security (cfg : JVal) (env : SecurityEnv) : Except String CheckResult :=
  match jpath cfg ["checks", "security", "enabled"] with
  | .error e => .error e
  | .ok enabled =>
  if !enabled.truthy then .ok { name := "Sécurité", passed := true, message := "Désactivée" }
  else
  match jpath cfg ["checks", "security", "tools"] with
  | .error e => .error e
  | .ok tools =>
  match jContains "bandit" tools with
  | .error e => .error e
  | .ok hasBandit =>
  let banditScans : List SubScan :=
    if hasBandit && env.banditInstalled then
      [if env.banditRet.code != 0 then
         { name := "Bandit", ok := false,
           msg := if !strEmpty env.banditRet.out then env.banditRet.out else env.banditRet.err }
       else { name := "Bandit", ok := true, msg := "Aucune vulnérabilité détectée" }]
    else []
  match jContains "safety" tools with
  | .error e => .error e
  | .ok hasSafety =>
  let safetyScans : List SubScan :=
    if hasSafety && env.safetyInstalled then
      [if env.safetyRet.code != 0 then
         { name := "Safety", ok := false, msg := "Vulnérabilités dans les dépendances",
           extra := some (safetyDetails env.safetyRet.out env.safetyVulns) }
       else { name := "Safety", ok := true, msg := "Aucune vulnérabilité détectée" }]
    else []
  match jpath cfg ["checks", "security"] with
  | .error e => .error e
  | .ok sec =>
  let secretScans : List SubScan :=
    if (sec.get "check_secrets" (.bool true)).truthy && env.baselineExists then
      [if env.secretsRet.code != 0 || containsSub "secrets" (lowerS env.secretsRet.out) then
         { name := "Secrets", ok := false, msg := "Secrets potentiels détectés",
           extra := some ["Vérifiez le fichier .secrets.baseline"] }
       else { name := "Secrets", ok := true, msg := "Aucun secret détecté" }]
    else []
  let patterns := _check_dangerous_patterns env.patternsFound
  let patternScan : SubScan :=
    if !patterns.isEmpty then
      { name := "Patterns", ok := false, msg := "Patterns dangereux détectés",
        extra := some patterns }
    else { name := "Patterns", ok := true, msg := "Aucun pattern dangereux" }
  let results := banditScans ++ safetyScans ++ secretScans ++ [patternScan]
  let failed := results.filter fun r => !r.ok
  if !failed.isEmpty then
    let details := failed.foldl (fun acc r =>
      acc ++ [r.name ++ ": " ++ r.msg] ++
        (match r.extra with
         | some l => if !l.isEmpty then l else []
         | none => [])) []
    .ok { name := "Sécurité", passed := false, message := "Problèmes de sécurité détectés",
          details := details }
  else .ok { name := "Sécurité", passed := true, message := "Aucun problème de sécurité détecté" }

/-- The filesystem and git answers `check_files` consumes: which of the
configured files exist, which of those git tracks, and the `.gitignore`
state. -/
structure FilesEnv where
  existing : List String
  tracked : List String
  gitignoreExists : Bool
  gitignoreContent : String
deriving Repr, DecidableEq

/-- `check_files` (lines 478-522). -/
def check_files (cfg : JVal) (env : FilesEnv) : Except String CheckResult :=
  match jpath cfg ["checks", "files", "enabled"] with
  | .error e => .error e
  | .ok enabled =>
  if !enabled.truthy then .ok { name := "Fichiers", passed := true, message := "Désactivé" }
  else
  match jpath cfg ["checks", "files", "forbidden_files"] with
  | .error e => .error e
  | .ok forbiddenVal =>
  match pyIterStrs forbiddenVal with
  | .error e => .error e
  | .ok forbidden_files =>
  let found := forbidden_files.filterMap fun file =>
    if env.existing.contains file then
      some (if env.tracked.contains file then file ++ " (suivi par git - DANGER!)"
            else file ++ " (non suivi - OK)")
    else none
  let dangerous := found.filter fun f => containsSub "DANGER" f
  if !found.isEmpty && !dangerous.isEmpty then
    .ok { name := "Fichiers", passed := false, message := "Fichiers sensibles commités!",
          details := dangerous }
  else
  match jpath cfg ["checks", "files"] with
  | .error e => .error e
  | .ok filesCfg =>
  if (filesCfg.get "check_gitignore" (.bool true)).truthy then
    if !env.gitignoreExists then
      .ok { name := "Fichiers", passed := false, message := "Fichier .gitignore manquant" }
    else
      let required := [".env", "db.sqlite3", "__pycache__/", "*.pyc"]
      let missing := required.filter fun item => !containsSub item env.gitignoreContent
      if !missing.isEmpty then
        .ok { name := "Fichiers", passed := false, message := ".gitignore incomplet",
              details := ["Manquant: " ++ joinSep ", " missing] }
      else .ok { name := "Fichiers", passed := true, message := "Aucun fichier sensible détecté" }
  else .ok { name := "Fichiers", passed := true, message := "Aucun fichier sensible détecté" }

/-- One non-newline character (the `.` of the regex under default flags). -/
def regexDot (c : Char) : Bool := c != '\n'

/-- The regex piece `: .+` at the start of `cs` (`re.match` is a prefix
match, so one non-newline character after the colon-space suffices). -/
def matchColonDesc : List Char → Bool
  | ':' :: ' ' :: d :: _ => regexDot d
  | _ => false

/-- The regex piece `(\(.+\))?: .+` at the start of `cs`; the optional scope
group is explored over every split, as backtracking would. -/
def matchAfterType (cs : List Char) : Bool :=
  matchColonDesc cs ||
  (match cs with
   | '(' :: rest =>
     (List.range rest.length).any fun i =>
       let scope := rest.take i
       match rest.drop i with
       | ')' :: tail => !scope.isEmpty && scope.all regexDot && matchColonDesc tail
       | _ => false
   | _ => false)

/-- `re.match(r'^(t1|...|tn)(\(.+\))?: .+', msg, re.IGNORECASE)` of lines
554-556, with case-insensitive comparison via lowering. -/
def matchesConventional (allowed_types : List String) (msg : String) : Bool :=
  let m := (lowerS msg).data
  allowed_types.any fun t =>
    let tl := (lowerS t).data
    beginsWith tl m && matchAfterType (m.drop tl.length)

/-- The warning string appended at lines 558-562. -/
def conventionWarning (allowed_types : List String) (last_message : String) : String :=
  "Le dernier commit ne suit pas la convention: '" ++ String.mk (last_message.data.take 50)
    ++ "...'\n" ++ "Format attendu: type: description\n"
    ++ "Types autorisés: " ++ joinSep ", " allowed_types

/-- The git answers `check_git` consumes: `git diff --cached --name-only` and
`git log -1 --pretty=%B`. -/
structure GitEnv where
  stagedRet : CmdResult
  logRet : CmdResult
deriving Repr, DecidableEq

/-- The default conventional-commit allow-list (lines 551-552). -/
def defaultTypes : List String := ["feat", "fix", "docs", "style", "refactor", "test", "chore"]

/-- Line 534: the staged-file list parsed from `git diff --cached
--name-only` output. -/
def staged_files_of (out : String) : List String :=
  if !strEmpty out then linesOf (trimS out) else []

/-- Line 547: the last commit message parsed from `git log -1 --pretty=%B`
output. -/
def last_message_of (out : String) : String :=
  if !strEmpty out then trimS out else ""

/-- `check_git` (lines 524-564).  Besides its result it returns the checker's
`warnings` list, to which a convention mismatch appends a warning. -/
def check_git (cfg : JVal) (env : GitEnv) (warnings : List String) :
    Except String (CheckResult × List String) :=
  match jpath cfg ["checks", "git", "enabled"] with
  | .error e => .error e
  | .ok enabled =>
  if !enabled.truthy then
    .ok ({ name := "Git", passed := true, message := "Désactivé" }, warnings)
  else
  match jpath cfg ["checks", "git"] with
  | .error e => .error e
  | .ok g =>
  if (g.get "check_staged_files" (.bool true)).truthy
      && ((staged_files_of env.stagedRet.out).isEmpty
          || staged_files_of env.stagedRet.out == [""]) then
    .ok ({ name := "Git", passed := false, message := "Aucun fichier staged",
           details := ["Utilisez 'git add' avant de committer"] }, warnings)
  else
  if (g.get "conventional_commits" (.bool true)).truthy then
    match pyIterStrs (g.get "allowed_types" (.arr (defaultTypes.map .str))) with
    | .error e => .error e
    | .ok allowed_types =>
    if !strEmpty (last_message_of env.logRet.out)
        && !matchesConventional allowed_types (last_message_of env.logRet.out) then
      .ok ({ name := "Git", passed := true, message := "Git OK" },
           warnings ++ [conventionWarning allowed_types (last_message_of env.logRet.out)])
    else .ok ({ name := "Git", passed := true, message := "Git OK" }, warnings)
  else .ok ({ name := "Git", passed := true, message := "Git OK" }, warnings)

/-! ## The orchestrator -/

/-- The check table of `run_all_checks` (lines 574-581): display name and
whether a fix function is registered (`fix_linter` for Linter, `None` for
every other check). -/
def checksTable : List (String × Bool) :=
  [("Linter", true), ("Tests", false), ("Django", false),
   ("Sécurité", false), ("Fichiers", false), ("Git", false)]

/-- The behaviour of one check slot during a run, as the orchestrator
observes it: the result (and the warnings / fixes-applied appends the check's
own code performs) of the first evaluation, whether a fix function is
registered in the table, the operator's reply if the orchestrator asks to
fix, what the fix function returns, and the second evaluation after a fix. -/
structure CheckSpec where
  name : String
  eval1 : CheckResult
  warns1 : List String := []
  fixes1 : List String := []
  hasFixer : Bool := false
  answer : ConfirmInput := .line ""
  fixReturns : Bool := false
  eval2 : CheckResult := { name := "", passed := false }
  warns2 : List String := []
  fixes2 : List String := []
deriving Repr, DecidableEq

/-- The orchestrator's mutable state plus an event trace: which check indices
were evaluated, asked for fix confirmation, and had their fixer invoked. -/
structure RunState where
  errors : List String := []
  warnings : List String := []
  fixes_applied : List String := []
  evaluated : List Nat := []
  confirms : List Nat := []
  fixerCalls : List Nat := []
deriving Repr, DecidableEq

def initState : RunState := {}

/-- Record one evaluation of check `i`: the index is traced, and the
warnings / fixes-applied appends performed inside the check are applied. -/
def noteEval (i : Nat) (w f : List String) (s : RunState) : RunState :=
  { s with evaluated := s.evaluated ++ [i],
           warnings := s.warnings ++ w,
           fixes_applied := s.fixes_applied ++ f }

/-- The outcome of one loop iteration before the strict-mode decision. -/
inductive StepRes where
  | ok (s : RunState)
  | failed (s : RunState) (msg : String)
deriving Repr, DecidableEq

/-- One iteration of the loop of `run_all_checks` (lines 585-616) up to the
strict-mode decision: evaluate; on failure, when the result is fixable, a
fixer is registered and auto-fix is on, ask confirmation, run the fixer and
re-evaluate once.  `ok` means the loop continues to the next check with no
error recorded; `failed` carries the message of the last evaluation. -/
def runCheck1 (autoFix interactive : Bool) (i : Nat) (s0 : RunState) (c : CheckSpec) : StepRes :=
  let s := noteEval i c.warns1 c.fixes1 s0
  if c.eval1.passed then .ok s
  else if c.eval1.can_fix && c.hasFixer && autoFix then
    let s := { s with confirms := s.confirms ++ [i] }
    if _confirm interactive autoFix c.answer then
      let s := { s with fixerCalls := s.fixerCalls ++ [i] }
      if c.fixReturns then
        let s := noteEval i c.warns2 c.fixes2 s
        if c.eval2.passed then .ok { s with fixes_applied := s.fixes_applied ++ [c.name] }
        else .failed s c.eval2.message
      else .failed s c.eval1.message
    else .failed s c.eval1.message
  else .failed s c.eval1.message

/-- The terminal state of a run: a strict-mode abort at a named check, or
completion with the accumulated `all_passed` verdict. -/
inductive RunOutcome where
  | aborted (checkName : String) (s : RunState)
  | completed (success : Bool) (s : RunState)
deriving Repr, DecidableEq

/-- The loop of `run_all_checks` (lines 583-629) from check index `i`: in
strict mode the first unrepaired failure aborts the run immediately (the
function returns `False` after printing the summary); otherwise
`"{name}: {message}"` is appended to `errors` and the loop continues. -/
def runChecks (strict autoFix interactive : Bool) :
    Nat → RunState → Bool → List CheckSpec → RunOutcome
  | _, s, allPassed, [] => .completed allPassed s
  | i, s, allPassed, c :: rest =>
    match runCheck1 autoFix interactive i s c with
    | .ok s' => runChecks strict autoFix interactive (i + 1) s' allPassed rest
    | .failed s' msg =>
      if strict then .aborted c.name s'
      else
        runChecks strict autoFix interactive (i + 1)
          { s' with errors := s'.errors ++ [c.name ++ ": " ++ msg] } false rest

/-- `run_all_checks` over a list of check behaviours. -/
def run_all_checks (strict autoFix interactive : Bool) (cs : List CheckSpec) : RunOutcome :=
  runChecks strict autoFix interactive 0 initState true cs

/-- The boolean `run_all_checks` returns: `False` on a strict-mode abort
(line 623), the accumulated `all_passed` otherwise (line 629). -/
def outcomeVerdict : RunOutcome → Bool
  | .aborted _ _ => false
  | .completed allPassed _ => allPassed

/-- The exit code `main` derives from `run_all_checks` (lines 701-703): `0`
on success, `1` otherwise.  Exit code 130 happens only when a
`KeyboardInterrupt` escapes `run_all_checks`; an interrupt typed at a
confirmation prompt is caught inside `_confirm` (lines 155-157) and never
escapes. -/
def mainExitCode (o : RunOutcome) : Nat := if outcomeVerdict o then 0 else 1

/-- A check survives its slot: it passes outright, or the fix path repairs
it (fixable result, registered fixer, auto-fix on, confirmation granted,
fix function returns truthy, re-evaluation passes). -/
def survives (autoFix interactive : Bool) (c : CheckSpec) : Bool :=
  c.eval1.passed ||
    (c.eval1.can_fix && c.hasFixer && autoFix && _confirm interactive autoFix c.answer
      && c.fixReturns && c.eval2.passed)

/-! ## Command-line entry point -/

/-- The command-line arguments `main` parses (lines 675-688). -/
structure Args where
  config : String := "scripts/pre-commit-config.json"
  fix : Bool := false
  yes : Bool := false
  from_hook : Bool := false
  only : Option String := none
  verbose : Bool := false
deriving Repr, DecidableEq

/-- How `main` (lines 694-698) applies the parsed flags to the checker's
`(auto_fix, interactive)` pair. -/
def applyArgs (autoFix interactive : Bool) (args : Args) : Bool × Bool :=
  let autoFix := if args.fix then true else autoFix
  if args.yes || args.from_hook then (true, false) else (autoFix, interactive)

/-- The names of the checks `run_all_checks` iterates for an invocation with
the given arguments: the fixed table of lines 574-581.  `main` parses
`--only` (lines 683-684) but never reads `args.only` afterwards, so the list
does not depend on the arguments. -/
def checkNamesRun (_args : Args) : List String := checksTable.map (·.1)

/-- The state carried by a step outcome. -/
def stepState : StepRes → RunState
  | .ok s => s
  | .failed s _ => s

/-- How one loop iteration extends the state: errors untouched, the only new
evaluated index is `i`, and `i` was evaluated. -/
def stepExtends (i : Nat) (s s' : RunState) : Prop :=
  s'.errors = s.errors ∧
  (∀ j ∈ s'.evaluated, j ∈ s.evaluated ∨ j = i) ∧
  i ∈ s'.evaluated ∧ ∀ j ∈ s.evaluated, j ∈ s'.evaluated

theorem runCheck1_ok_of_survives (aF iA : Bool) (i : Nat) (s : RunState) (c : CheckSpec)
    (h : survives aF iA c = true) :
    ∃ s', runCheck1 aF iA i s c = .ok s' ∧ stepExtends i s s' := by
  unfold survives at h
  unfold runCheck1
  cases hp : c.eval1.passed <;> simp [hp] at h ⊢
  · obtain ⟨⟨⟨⟨⟨hcf, hhf⟩, haf⟩, hc⟩, hfr⟩, h2⟩ := h
    subst haf
    simp [hcf, hhf, hc, hfr, h2, stepExtends, noteEval, List.mem_append]
    tauto
  · simp [stepExtends, noteEval, List.mem_append]
    tauto

theorem stepExtends_of_eval (i : Nat) (s s' : RunState) (herr : s'.errors = s.errors)
    (hev : s'.evaluated = s.evaluated ++ [i] ∨ s'.evaluated = s.evaluated ++ [i] ++ [i]) :
    stepExtends i s s' := by
  obtain h | h := hev <;>
    exact ⟨herr, by simp [h, List.mem_append]; try tauto, by simp [h], fun j hj => by simp [h, hj]⟩

theorem runCheck1_failed_of_fails (aF iA : Bool) (i : Nat) (s : RunState) (c : CheckSpec)
    (h : survives aF iA c = false) :
    ∃ s' m, runCheck1 aF iA i s c = .failed s' m ∧ stepExtends i s s' := by
  have hp : c.eval1.passed = false := by
    cases hp : c.eval1.passed
    · rfl
    · unfold survives at h; simp [hp] at h
  unfold runCheck1
  rw [if_neg (by simp [hp])]
  by_cases hb : (c.eval1.can_fix && c.hasFixer && aF) = true
  · rw [if_pos hb]
    by_cases hc : _confirm iA aF c.answer = true
    · rw [if_pos hc]
      by_cases hfr : c.fixReturns = true
      · rw [if_pos hfr]
        have h2 : c.eval2.passed = false := by
          cases h2 : c.eval2.passed
          · rfl
          · unfold survives at h; simp [hp, hb, hc, hfr, h2] at h
        rw [if_neg (by simp [h2])]
        exact ⟨_, _, rfl, stepExtends_of_eval _ _ _ rfl (Or.inr rfl)⟩
      · rw [if_neg hfr]
        exact ⟨_, _, rfl, stepExtends_of_eval _ _ _ rfl (Or.inl rfl)⟩
    · rw [if_neg hc]
      exact ⟨_, _, rfl, stepExtends_of_eval _ _ _ rfl (Or.inl rfl)⟩
  · rw [if_neg hb]
    exact ⟨_, _, rfl, stepExtends_of_eval _ _ _ rfl (Or.inl rfl)⟩

theorem runChecks_append_survivors (strict aF iA : Bool) (cs ds : List CheckSpec) :
    ∀ (i : Nat) (s : RunState) (ap : Bool), (∀ c ∈ cs, survives aF iA c = true) →
    ∃ s', runChecks strict aF iA i s ap (cs ++ ds)
            = runChecks strict aF iA (i + cs.length) s' ap ds ∧
      s'.errors = s.errors ∧
      (∀ j ∈ s'.evaluated, j ∈ s.evaluated ∨ (i ≤ j ∧ j < i + cs.length)) ∧
      ∀ j ∈ s.evaluated, j ∈ s'.evaluated := by
  induction cs with
  | nil =>
    intro i s ap _
    exact ⟨s, by simp, rfl, fun j hj => Or.inl hj, fun j hj => hj⟩
  | cons c cs ih =>
    intro i s ap hall
    obtain ⟨s1, h1, hext⟩ := runCheck1_ok_of_survives aF iA i s c (hall c (by simp))
    obtain ⟨s', h', herr', hbd', hmono'⟩ :=
      ih (i + 1) s1 ap (fun d hd => hall d (by simp [hd]))
    refine ⟨s', ?_, ?_, ?_, ?_⟩
    · have hlen : i + (c :: cs).length = (i + 1) + cs.length := by
        simp [List.length_cons]; omega
      calc runChecks strict aF iA i s ap ((c :: cs) ++ ds)
          = runChecks strict aF iA (i + 1) s1 ap (cs ++ ds) := by
            simp [runChecks, h1]
        _ = runChecks strict aF iA ((i + 1) + cs.length) s' ap ds := h'
        _ = runChecks strict aF iA (i + (c :: cs).length) s' ap ds := by rw [hlen]
    · rw [herr', hext.1]
    · intro j hj
      rcases hbd' j hj with hj1 | ⟨hle, hlt⟩
      · rcases hext.2.1 j hj1 with hmem | heq
        · exact Or.inl hmem
        · right
          subst heq
          refine ⟨Nat.le_refl _, ?_⟩
          simp only [List.length_cons]
          omega
      · right
        refine ⟨by omega, ?_⟩
        simp only [List.length_cons]
        omega
    · intro j hj
      exact hmono' j (hext.2.2.2 j hj)

theorem runChecks_nonstrict_spec (aF iA : Bool) (cs : List CheckSpec) :
    ∀ (i : Nat) (s : RunState) (ap : Bool),
    ∃ s', runChecks false aF iA i s ap cs
            = .completed (ap && cs.all fun c => survives aF iA c) s' ∧
      s'.errors.length = s.errors.length + (cs.filter fun c => !survives aF iA c).length ∧
      (∀ j, i ≤ j → j < i + cs.length → j ∈ s'.evaluated) ∧
      ∀ j ∈ s.evaluated, j ∈ s'.evaluated := by
  induction cs with
  | nil =>
    intro i s ap
    refine ⟨s, by simp [runChecks], by simp, ?_, fun j hj => hj⟩
    intro j h1 h2
    exact absurd h2 (by simp only [List.length_nil]; omega)
  | cons c cs ih =>
    intro i s ap
    cases hs : survives aF iA c
    · obtain ⟨s1, m, h1, hext⟩ := runCheck1_failed_of_fails aF iA i s c hs
      obtain ⟨s', h', hlen', hcov', hmono'⟩ :=
        ih (i + 1) { s1 with errors := s1.errors ++ [c.name ++ ": " ++ m] } false
      refine ⟨s', ?_, ?_, ?_, ?_⟩
      · simp [runChecks, h1, hs, h']
      · rw [hlen']
        have e1 : s1.errors = s.errors := hext.1
        simp [e1, List.filter_cons, hs]
        omega
      · intro j hj1 hj2
        rcases Nat.eq_or_lt_of_le hj1 with heq | hlt
        · subst heq
          exact hmono' _ hext.2.2.1
        · refine hcov' j hlt ?_
          simp only [List.length_cons] at hj2
          omega
      · intro j hj
        exact hmono' j (hext.2.2.2 j hj)
    · obtain ⟨s1, h1, hext⟩ := runCheck1_ok_of_survives aF iA i s c hs
      obtain ⟨s', h', hlen', hcov', hmono'⟩ := ih (i + 1) s1 ap
      refine ⟨s', ?_, ?_, ?_, ?_⟩
      · simp [runChecks, h1, hs, h']
      · rw [hlen', hext.1]
        simp [List.filter_cons, hs]
      · intro j hj1 hj2
        rcases Nat.eq_or_lt_of_le hj1 with heq | hlt
        · subst heq
          exact hmono' _ hext.2.2.1
        · refine hcov' j hlt ?_
          simp only [List.length_cons] at hj2
          omega
      · intro j hj
        exact hmono' j (hext.2.2.2 j hj)

theorem strict_mode_aborts_on_first_failure (aF iA : Bool) (cs ds : List CheckSpec)
    (c0 : CheckSpec) (hall : ∀ c ∈ cs, survives aF iA c = true)
    (hfail : survives aF iA c0 = false) :
    ∃ s, run_all_checks true aF iA (cs ++ c0 :: ds) = .aborted c0.name s ∧
      (∀ j ∈ s.evaluated, j ≤ cs.length) ∧
      outcomeVerdict (run_all_checks true aF iA (cs ++ c0 :: ds)) = false := by
  obtain ⟨s', h', herr', hbd', hmono'⟩ :=
    runChecks_append_survivors true aF iA cs (c0 :: ds) 0 initState true hall
  simp only [Nat.zero_add] at h' hbd'
  obtain ⟨s1, m, h1, hext⟩ := runCheck1_failed_of_fails aF iA cs.length s' c0 hfail
  have habort : run_all_checks true aF iA (cs ++ c0 :: ds) = .aborted c0.name s1 := by
    unfold run_all_checks
    rw [h']
    simp [runChecks, h1]
  refine ⟨s1, habort, ?_, by rw [habort]; rfl⟩
  intro j hj
  rcases hext.2.1 j hj with hmem | heq
  · rcases hbd' j hmem with hinit | hlt
    · simp [initState] at hinit
    · omega
  · omega

theorem nonstrict_collects_all_failures (aF iA : Bool) (cs : List CheckSpec) :
    ∃ s, run_all_checks false aF iA cs
          = .completed (cs.all fun c => survives aF iA c) s ∧
      s.errors.length = (cs.filter fun c => !survives aF iA c).length ∧
      (∀ j, j < cs.length → j ∈ s.evaluated) ∧
      (outcomeVerdict (run_all_checks false aF iA cs) = true ↔ s.errors = []) := by
  obtain ⟨s', h', hlen', hcov', _⟩ := runChecks_nonstrict_spec aF iA cs 0 initState true
  have hrun : run_all_checks false aF iA cs
      = .completed (cs.all fun c => survives aF iA c) s' := by
    unfold run_all_checks
    rw [h']
    simp
  have herrlen : s'.errors.length = (cs.filter fun c => !survives aF iA c).length := by
    rw [hlen']
    simp [initState]
  refine ⟨s', hrun, herrlen, fun j hj => hcov' j (Nat.zero_le j) (by omega), ?_⟩
  rw [hrun]
  show (cs.all fun c => survives aF iA c) = true ↔ s'.errors = []
  constructor
  · intro hall
    have hfilter : (cs.filter fun c => !survives aF iA c).length = 0 := by
      simp only [List.length_eq_zero, List.filter_eq_nil_iff]
      intro a ha
      simp [List.all_eq_true.mp hall a ha]
    exact List.length_eq_zero.mp (by rw [herrlen, hfilter])
  · intro hnil
    have h0 : (cs.filter fun c => !survives aF iA c).length = 0 := by
      rw [← herrlen, hnil]
      rfl
    simp only [List.length_eq_zero, List.filter_eq_nil_iff] at h0
    simp only [List.all_eq_true]
    intro a ha
    have ha0 := h0 a ha
    simp at ha0
    exact ha0

/-! ## Lemmas about strings and configuration values -/

theorem data_append (s t : String) : (s ++ t).data = s.data ++ t.data := rfl

theorem beginsWith_append (n xs ys : List Char) (h : beginsWith n xs = true) :
    beginsWith n (xs ++ ys) = true := by
  induction n generalizing xs with
  | nil => rfl
  | cons a as ih =>
    cases xs with
    | nil => simp [beginsWith] at h
    | cons b bs =>
      simp only [beginsWith, Bool.and_eq_true] at h ⊢
      exact ⟨h.1, ih bs h.2⟩

theorem containsChars_append_right (n xs ys : List Char) (h : containsChars n xs = true) :
    containsChars n (xs ++ ys) = true := by
  induction xs with
  | nil =>
    simp only [containsChars] at h
    cases ys with
    | nil => simpa [containsChars]
    | cons c cs =>
      simp only [List.nil_append, containsChars, Bool.or_eq_true]
      exact Or.inl (beginsWith_append n [] (c :: cs) (by cases n <;> simp_all [beginsWith]))
  | cons x xs ih =>
    simp only [containsChars, Bool.or_eq_true] at h
    simp only [List.cons_append, containsChars, Bool.or_eq_true]
    rcases h with h | h
    · exact Or.inl (by simpa using beginsWith_append n (x :: xs) ys h)
    · exact Or.inr (ih h)

theorem containsChars_append_left (n xs ys : List Char) (h : containsChars n ys = true) :
    containsChars n (xs ++ ys) = true := by
  induction xs with
  | nil => simpa
  | cons x xs ih =>
    simp only [List.cons_append, containsChars, Bool.or_eq_true]
    exact Or.inr ih

theorem pyStrList_map_str (l : List String) : pyStrList (l.map .str) = .ok l := by
  induction l with
  | nil => rfl
  | cons x xs ih =>
    have hstep : pyStrList (JVal.str x :: List.map JVal.str xs)
        = match JVal.str x, pyStrList (List.map JVal.str xs) with
          | .str s, .ok l => .ok (s :: l)
          | _, .ok _ => .error "TypeError: expected str"
          | _, .error e => .error e := rfl
    rw [List.map_cons, hstep, ih]

theorem pyIterStrs_map_str (l : List String) : pyIterStrs (.arr (l.map .str)) = .ok l :=
  pyStrList_map_str l

theorem conventionWarning_mentions_format (types : List String) (msg : String) :
    containsSub "Format attendu" (conventionWarning types msg) = true := by
  unfold conventionWarning containsSub
  simp only [data_append, List.append_assoc]
  apply containsChars_append_left
  apply containsChars_append_left
  apply containsChars_append_left
  apply containsChars_append_right
  decide

/-! ## Concrete fixtures used by witnesses and counterexamples -/

/-- A configuration enabling the linter with its required parameters. -/
def lintCfg : JVal :=
  .obj [("checks", .obj [("linter",
    .obj [("enabled", .bool true), ("exclude", .arr [.str "env"]),
          ("max_line_length", .num 100)])])]

/-- flake8 present and failing with one style error; black available. -/
def lintFailEnv : LinterEnv :=
  { flake8Installed := true, installAnswer := .line "", pipInstallRet := ⟨0, "", ""⟩,
    flake8Ret := ⟨1, "app.py:1:1: E501 line too long", ""⟩, blackInstalled := true }

/-- What `check_linter` returns on `lintFailEnv`. -/
def lintFailResult : CheckResult :=
  { name := "Linter", passed := false, message := "1 erreurs de style", can_fix := true,
    fix_command := "black .",
    details := ["1 erreur(s) de style détectée(s)", "Exemples d'erreurs :",
                "app.py:1:1: E501 line too long"] }

/-- A check slot that always passes, under the given table name. -/
def passingSpec (nm : String) : CheckSpec :=
  { name := nm, eval1 := { name := nm, passed := true } }

/-- The Tests slot failing (not fixable, no fixer). -/
def failTestsSpec : CheckSpec :=
  { name := "Tests",
    eval1 := { name := "Tests", passed := false, message := "Certains tests ont échoué" } }

/-- The Linter slot failing fixable, fixer registered, operator confirms,
fix succeeds and the re-evaluation passes. -/
def fixableSpec : CheckSpec :=
  { name := "Linter", eval1 := lintFailResult, hasFixer := true, answer := .line "o",
    fixReturns := true,
    eval2 := { name := "Linter", passed := true, message := "Aucune erreur détectée" } }

/-- The Linter slot failing fixable with the operator interrupting the
confirmation prompt. -/
def interruptSpec : CheckSpec :=
  { name := "Linter", eval1 := lintFailResult, hasFixer := true, answer := .interrupt }

/-- A Django-check configuration with only `enabled` set. -/
def djangoCfg : JVal := .obj [("checks", .obj [("django", .obj [("enabled", .bool true)])])]

/-- Same, with `auto_migrate` switched on. -/
def djangoAutoMigrateCfg : JVal :=
  .obj [("checks", .obj [("django",
    .obj [("enabled", .bool true), ("auto_migrate", .bool true)])])]

/-- `manage.py check` passes, `makemigrations --check` fails (missing
migrations), the operator answers the prompt with an empty line (yes), and
`makemigrations` succeeds. -/
def djangoMissingEnv : DjangoEnv :=
  { checkRet := ⟨0, "", ""⟩, deployRet := ⟨0, "", ""⟩, migrateCheckRet := ⟨1, "", ""⟩,
    confirmAnswer := .line "", makemigrationsRet := ⟨0, "", ""⟩ }

/-- The Django slot as it behaves after its internal auto-migrate repair:
the evaluation itself passed and appended to `fixes_applied`. -/
def djangoRepairedSpec : CheckSpec :=
  { name := "Django",
    eval1 := { name := "Django", passed := true, message := "Configuration OK, migrations créées" },
    fixes1 := ["Migrations créées"] }

/-- A configuration file that is present but whose `checks` map omits every
per-check entry. -/
def emptyChecksCfg : JVal := .obj [("checks", .obj [])]

/-- An arbitrary linter environment (flake8 present and passing). -/
def plainLinterEnv : LinterEnv :=
  { flake8Installed := true, installAnswer := .line "", pipInstallRet := ⟨0, "", ""⟩,
    flake8Ret := ⟨0, "", ""⟩, blackInstalled := false }

/-- An arbitrary security environment. -/
def plainSecurityEnv : SecurityEnv :=
  { banditInstalled := true, banditRet := ⟨0, "", ""⟩, safetyInstalled := true,
    safetyRet := ⟨0, "", ""⟩, safetyVulns := none, baselineExists := true,
    secretsRet := ⟨0, "", ""⟩, patternsFound := [] }

/-- A configuration disabling every check. -/
def allDisabledCfg : JVal :=
  .obj [("checks", .obj [("linter", .obj [("enabled", .bool false)]),
                         ("tests", .obj [("enabled", .bool false)]),
                         ("django", .obj [("enabled", .bool false)]),
                         ("security", .obj [("enabled", .bool false)]),
                         ("files", .obj [("enabled", .bool false)]),
                         ("git", .obj [("enabled", .bool false)])])]

/-- A configuration enabling only the tests check. -/
def testsOnCfg : JVal := .obj [("checks", .obj [("tests", .obj [("enabled", .bool true)])])]

/-- A git-check configuration with the given conventional-commit allow-list. -/
def gitCfgWith (types : List String) : JVal :=
  .obj [("checks", .obj [("git",
    .obj [("enabled", .bool true), ("allowed_types", .arr (types.map .str))])])]

/-- One staged file and the non-conforming last commit message of the spec's
scenario. -/
def mismatchGitEnv : GitEnv :=
  { stagedRet := ⟨0, "file.py\n", ""⟩, logRet := ⟨0, "update stuff\n", ""⟩ }


/-! ## The claims -/

set_option maxHeartbeats 4000000 in
/-- C1 (amended): in the orchestrator's check table a fixer is registered
exactly for Linter; every fixable result of `check_linter` therefore has its
fixer registered, and Tests, Security, Files and Git can never return
`can_fix = true`, so the invariant holds for every check except Django
(which breaks it — see the counterexample). -/
theorem canFix_pairs_with_registered_fixer :
    (∀ (cfg : JVal) (iA aF : Bool) (env : LinterEnv) (res : CheckResult),
      check_linter cfg iA aF env = .ok res → res.can_fix = true →
        checksTable.lookup "Linter" = some true) ∧
    (∀ (cfg : JVal) (env : TestsEnv) (res : CheckResult),
      check_tests cfg env = .ok res → res.can_fix = false) ∧
    (∀ (cfg : JVal) (env : SecurityEnv) (res : CheckResult),
      check_security cfg env = .ok res → res.can_fix = false) ∧
    (∀ (cfg : JVal) (env : FilesEnv) (res : CheckResult),
      check_files cfg env = .ok res → res.can_fix = false) ∧
    (∀ (cfg : JVal) (env : GitEnv) (w : List String) (res : CheckResult) (w' : List String),
      check_git cfg env w = .ok (res, w') → res.can_fix = false) := by
  refine ⟨fun _ _ _ _ _ _ _ => rfl, ?_, ?_, ?_, ?_⟩
  · intro cfg env res h
    unfold check_tests at h
    try simp only [] at h
    repeat any_goals split at h
    all_goals first
      | exact Except.noConfusion h
      | (injection h with h; exact h ▸ rfl)
  · intro cfg env res h
    unfold check_security at h
    try simp only [] at h
    repeat any_goals split at h
    all_goals first
      | exact Except.noConfusion h
      | (injection h with h; exact h ▸ rfl)
  · intro cfg env res h
    unfold check_files at h
    try simp only [] at h
    repeat any_goals split at h
    all_goals first
      | exact Except.noConfusion h
      | (injection h with h; exact h ▸ rfl)
  · intro cfg env w res w' h
    unfold check_git at h
    try simp only [] at h
    repeat any_goals split at h
    all_goals first
      | exact Except.noConfusion h
      | (injection h with h; injection h with h1 h2; exact h1 ▸ rfl)

/-- C1 counterexample: on a tree with missing migrations the Django check
returns a fixable result (`can_fix = true`, lines 348-350) while the check
table of `run_all_checks` registers no fixer for Django (line 577). -/
theorem django_canFix_without_fixer_counterexample :
    check_django djangoCfg true true djangoMissingEnv []
      = .ok ({ name := "Django", passed := false, message := "Migrations manquantes",
               can_fix := true, details := ["Exécutez: python manage.py makemigrations"] },
             []) ∧
    checksTable.lookup "Django" = some false :=
  ⟨rfl, rfl⟩

/-- C2: with strict mode active, when every check before `c0` survives (passes
or is repaired) and `c0` fails unrepaired, the run aborts naming `c0`, no
check after position `cs.length` is ever evaluated, and the verdict is
failure. -/
theorem strict_mode_aborts_on_first_failure_claim (aF iA : Bool) (cs ds : List CheckSpec)
    (c0 : CheckSpec) (hall : ∀ c ∈ cs, survives aF iA c = true)
    (hfail : survives aF iA c0 = false) :
    ∃ s, run_all_checks true aF iA (cs ++ c0 :: ds) = .aborted c0.name s ∧
      (∀ j ∈ s.evaluated, j ≤ cs.length) ∧
      outcomeVerdict (run_all_checks true aF iA (cs ++ c0 :: ds)) = false :=
  strict_mode_aborts_on_first_failure aF iA cs ds c0 hall hfail

/-- C2 witness: a concrete strict run — Linter passes, Tests fails, the later
Django slot is never evaluated. -/
theorem strict_mode_aborts_witness :
    (∀ c ∈ [passingSpec "Linter"], survives true false c = true) ∧
    survives true false failTestsSpec = false ∧
    (∃ s, run_all_checks true true false
          ([passingSpec "Linter"] ++ failTestsSpec :: [passingSpec "Django"])
        = .aborted failTestsSpec.name s ∧
      (∀ j ∈ s.evaluated, j ≤ [passingSpec "Linter"].length) ∧
      outcomeVerdict (run_all_checks true true false
          ([passingSpec "Linter"] ++ failTestsSpec :: [passingSpec "Django"])) = false) :=
  ⟨by decide, by decide,
   strict_mode_aborts_on_first_failure_claim true false [passingSpec "Linter"]
     [passingSpec "Django"] failTestsSpec (by decide) (by decide)⟩

/-- C3 (amended): for a failing fixable check with a registered fixer, with
auto-fix on the orchestrator asks confirmation; if confirmed and the fixer
returns truthy the check is re-evaluated exactly once, and if the
re-evaluation passes the check's table name is appended to `fixes_applied`
and the loop continues as for a pass.  With auto-fix off the orchestrator
asks no confirmation, runs no fixer, and in strict mode the run exits with
code 1.  (`fixes_applied` can still become non-empty with auto-fix off via
the Django check's internal auto-migrate path — see the counterexample.) -/
theorem autofix_confirm_fix_reevaluate_policy (iA : Bool) (i : Nat) (s : RunState)
    (c : CheckSpec) (hfail : c.eval1.passed = false) (hfix : c.eval1.can_fix = true)
    (hreg : c.hasFixer = true) :
    (stepState (runCheck1 true iA i s c)).confirms = s.confirms ++ [i] ∧
    (_confirm iA true c.answer = true → c.fixReturns = true →
      (stepState (runCheck1 true iA i s c)).fixerCalls = s.fixerCalls ++ [i] ∧
      (stepState (runCheck1 true iA i s c)).evaluated = s.evaluated ++ [i] ++ [i]) ∧
    (_confirm iA true c.answer = true → c.fixReturns = true → c.eval2.passed = true →
      runCheck1 true iA i s c = .ok
        { errors := s.errors, warnings := s.warnings ++ c.warns1 ++ c.warns2,
          fixes_applied := s.fixes_applied ++ c.fixes1 ++ c.fixes2 ++ [c.name],
          evaluated := s.evaluated ++ [i] ++ [i], confirms := s.confirms ++ [i],
          fixerCalls := s.fixerCalls ++ [i] }) ∧
    (runCheck1 false iA i s c = .failed (noteEval i c.warns1 c.fixes1 s) c.eval1.message ∧
      (noteEval i c.warns1 c.fixes1 s).confirms = s.confirms ∧
      (noteEval i c.warns1 c.fixes1 s).fixerCalls = s.fixerCalls) ∧
    (∀ ds, mainExitCode (run_all_checks true false iA (c :: ds)) = 1) := by
  refine ⟨?_, ?_, ?_, ⟨?_, rfl, rfl⟩, ?_⟩
  · unfold runCheck1
    rw [if_neg (by simp [hfail]), if_pos (by simp [hfix, hreg])]
    by_cases hc : _confirm iA true c.answer = true
    · rw [if_pos hc]
      by_cases hfr : c.fixReturns = true
      · rw [if_pos hfr]
        by_cases h2 : c.eval2.passed = true
        · rw [if_pos h2]; rfl
        · rw [if_neg h2]; rfl
      · rw [if_neg hfr]; rfl
    · rw [if_neg hc]; rfl
  · intro hc hfr
    unfold runCheck1
    rw [if_neg (by simp [hfail]), if_pos (by simp [hfix, hreg]), if_pos hc, if_pos hfr]
    by_cases h2 : c.eval2.passed = true
    · rw [if_pos h2]; exact ⟨rfl, rfl⟩
    · rw [if_neg h2]; exact ⟨rfl, rfl⟩
  · intro hc hfr h2
    unfold runCheck1
    rw [if_neg (by simp [hfail]), if_pos (by simp [hfix, hreg]), if_pos hc, if_pos hfr,
        if_pos h2]
    rfl
  · unfold runCheck1
    rw [if_neg (by simp [hfail]), if_neg (by simp)]
  · intro ds
    have hsurv : survives false iA c = false := by
      unfold survives
      simp [hfail]
    obtain ⟨s1, m, h1, _⟩ := runCheck1_failed_of_fails false iA 0 initState c hsurv
    unfold run_all_checks mainExitCode
    simp [runChecks, h1, outcomeVerdict]

/-- C3 witness: a concrete fixable Linter failure with auto-fix on, operator
confirming, the fixer succeeding and the re-evaluation passing: the step
continues as a pass with `fixes_applied = ["Linter"]`. -/
theorem autofix_policy_witness :
    runCheck1 true true 0 initState fixableSpec
      = .ok { errors := [], warnings := [], fixes_applied := ["Linter"],
              evaluated := [0, 0], confirms := [0], fixerCalls := [0] } :=
  (autofix_confirm_fix_reevaluate_policy true 0 initState fixableSpec
    rfl rfl rfl).2.2.1 (by decide) rfl rfl

/-- C3 counterexample: with `auto_fix = false` (interactive run, operator
confirming the migration prompt) the Django check itself creates missing
migrations and appends `"Migrations créées"` to `fixes_applied`, so
`fixesApplied` does not stay empty when auto-fix is off. -/
theorem autofix_disabled_fixes_applied_counterexample :
    check_django djangoAutoMigrateCfg true false djangoMissingEnv []
      = .ok ({ name := "Django", passed := true,
               message := "Configuration OK, migrations créées" },
             ["Migrations créées"]) ∧
    run_all_checks true false true [djangoRepairedSpec]
      = .completed true { errors := [], warnings := [], fixes_applied := ["Migrations créées"],
                          evaluated := [0], confirms := [], fixerCalls := [] } :=
  ⟨rfl, rfl⟩

/-- C4: with strict mode inactive the run completes through the whole list,
each unrepaired failure contributes exactly one `errors` entry, every check
index is evaluated, and the verdict is success exactly when `errors` is
empty. -/
theorem nonstrict_collects_all_failures_claim (aF iA : Bool) (cs : List CheckSpec) :
    ∃ s, run_all_checks false aF iA cs
          = .completed (cs.all fun c => survives aF iA c) s ∧
      s.errors.length = (cs.filter fun c => !survives aF iA c).length ∧
      (∀ j, j < cs.length → j ∈ s.evaluated) ∧
      (outcomeVerdict (run_all_checks false aF iA cs) = true ↔ s.errors = []) :=
  nonstrict_collects_all_failures aF iA cs

/-- C5 (amended): an end-of-input or interrupt at the confirmation prompt is
caught inside `_confirm` and returned as `false`, i.e. exactly a refused
confirmation: the step behaves as if the operator had answered "non", the
loop then applies the normal strict/non-strict policy, and the exit code
`main` derives from `run_all_checks` is always 0 or 1, never 130 (130 is
reserved for a `KeyboardInterrupt` escaping `run_all_checks`, which an
interrupt at the prompt never does). -/
theorem prompt_interrupt_treated_as_refusal (aF : Bool) (i : Nat) (s : RunState)
    (c : CheckSpec) (hans : c.answer = .interrupt) (hfail : c.eval1.passed = false)
    (hfix : c.eval1.can_fix = true) (hreg : c.hasFixer = true) :
    _confirm true aF .interrupt = false ∧
    _confirm true aF .eof = false ∧
    runCheck1 aF true i s c = runCheck1 aF true i s { c with answer := .line "non" } ∧
    (aF = true →
      runCheck1 true true i s c
        = .failed { noteEval i c.warns1 c.fixes1 s with
                    confirms := (noteEval i c.warns1 c.fixes1 s).confirms ++ [i] }
            c.eval1.message) ∧
    (∀ strict cs, mainExitCode (run_all_checks strict aF true cs) ≠ 130) := by
  refine ⟨rfl, rfl, ?_, ?_, ?_⟩
  · unfold runCheck1
    rw [hans]
    rfl
  · intro haf
    subst haf
    unfold runCheck1
    rw [if_neg (by simp [hfail]), if_pos (by simp [hfix, hreg]), hans,
        if_neg (by decide)]
  · intro strict cs
    unfold mainExitCode
    by_cases hv : outcomeVerdict (run_all_checks strict aF true cs) = true
    · rw [if_pos hv]
      omega
    · rw [if_neg hv]
      omega

/-- C5 witness: the interrupt answer at a concrete fixable Linter failure is
treated as a refusal and the loop falls through to the failure policy. -/
theorem prompt_interrupt_witness :
    runCheck1 true true 0 initState interruptSpec
      = .failed { errors := [], warnings := [], fixes_applied := [],
                  evaluated := [0], confirms := [0], fixerCalls := [] }
          "1 erreurs de style" :=
  (prompt_interrupt_treated_as_refusal true 0 initState interruptSpec
    rfl rfl rfl rfl).2.2.2.1 rfl

/-- C5 counterexample: in a non-strict interactive run whose first check
fails fixable and whose prompt is interrupted, the run does not terminate:
the next check is still evaluated (index 1 appears in the trace), the
summary path is reached (`completed`), and the exit code is 1, not 130. -/
theorem prompt_interrupt_continues_run_counterexample :
    check_linter lintCfg true true lintFailEnv = .ok lintFailResult ∧
    run_all_checks false true true [interruptSpec, passingSpec "Git"]
      = .completed false
          { errors := ["Linter: 1 erreurs de style"], warnings := [], fixes_applied := [],
            evaluated := [0, 1], confirms := [0], fixerCalls := [] } ∧
    mainExitCode (run_all_checks false true true [interruptSpec, passingSpec "Git"]) = 1 :=
  ⟨rfl, rfl, rfl⟩

/-- C6 (amended): a missing configuration file falls back to the built-in
defaults — strict mode, auto-fix and interactive all on, every check
enabled.  But a present configuration that merely omits a check's entry does
not fall back: the check reads `config["checks"][name]["enabled"]` directly
and raises `KeyError`, so its evaluation does not succeed. -/
theorem missing_config_defaults_but_missing_entry_raises :
    _load_config .missing = .ok _default_config ∧
    initFlags _default_config = (true, true, true) ∧
    jpath _default_config ["checks", "linter", "enabled"] = .ok (.bool true) ∧
    jpath _default_config ["checks", "tests", "enabled"] = .ok (.bool true) ∧
    jpath _default_config ["checks", "django", "enabled"] = .ok (.bool true) ∧
    jpath _default_config ["checks", "security", "enabled"] = .ok (.bool true) ∧
    jpath _default_config ["checks", "files", "enabled"] = .ok (.bool true) ∧
    jpath _default_config ["checks", "git", "enabled"] = .ok (.bool true) ∧
    (∀ (iA aF : Bool) (env : LinterEnv),
      check_linter emptyChecksCfg iA aF env = .error "KeyError: linter") ∧
    (∀ env : TestsEnv, check_tests emptyChecksCfg env = .error "KeyError: tests") :=
  ⟨rfl, rfl, rfl, rfl, rfl, rfl, rfl, rfl, fun _ _ _ => rfl, fun _ => rfl⟩

/-- C6 counterexample: a configuration file that exists but omits the
linter's entry makes the linter check raise `KeyError` instead of falling
back to defaults, so its evaluation does not succeed. -/
theorem missing_check_entry_keyerror_counterexample :
    check_linter emptyChecksCfg true true plainLinterEnv = .error "KeyError: linter" :=
  rfl

/-- C7: a timeout of an external command is converted by `_run_command` into
the distinguished triple `(-1, "", "Commande expirée après {t}s")` — the
message carries the budget, the code is non-zero, no behaviour of the child
process escapes as an exception — and the Tests check treats the timeout of
its 120-second test run as an ordinary failure. -/
theorem timeout_distinguished_and_nonfatal (t : Nat) (env : TestsEnv)
    (htimeout : env.testRet = _run_command 120 .timesOut) :
    (_run_command t .timesOut).code = -1 ∧
    (_run_command t .timesOut).code ≠ 0 ∧
    (_run_command t .timesOut).err = "Commande expirée après " ++ toString t ++ "s" ∧
    (∀ b, ∃ r, _run_command t b = r) ∧
    check_tests testsOnCfg env
      = .ok { name := "Tests", passed := false, message := "Certains tests ont échoué" } := by
  refine ⟨rfl, fun h => (by decide : ¬((-1 : Int) = 0)) h, rfl, fun b => ⟨_, rfl⟩, ?_⟩
  obtain ⟨ret⟩ := env
  simp only at htimeout
  subst htimeout
  rfl

/-- C7 witness: the timed-out test run at the concrete environment. -/
theorem timeout_nonfatal_witness :
    check_tests testsOnCfg { testRet := _run_command 120 .timesOut }
      = .ok { name := "Tests", passed := false, message := "Certains tests ont échoué" } :=
  (timeout_distinguished_and_nonfatal 120 { testRet := _run_command 120 .timesOut }
    rfl).2.2.2.2

/-- C8 (amended): for every configured allow-list and every last commit
message that is non-empty after stripping and does not match the
conventional pattern, the Git check (with staged files present) returns
`passed = true` — a mismatch never fails the check — and appends one warning
mentioning the expected format.  (An empty last message also fails the
pattern but appends no warning — see the counterexample.) -/
theorem convention_mismatch_warns_nonblocking (types : List String) (env : GitEnv)
    (w : List String)
    (hstaged : ((staged_files_of env.stagedRet.out).isEmpty
        || staged_files_of env.stagedRet.out == [""]) = false)
    (hout : strEmpty env.logRet.out = false)
    (hmsg : strEmpty (trimS env.logRet.out) = false)
    (hnomatch : matchesConventional types (trimS env.logRet.out) = false) :
    check_git (gitCfgWith types) env w
      = .ok ({ name := "Git", passed := true, message := "Git OK" },
             w ++ [conventionWarning types (trimS env.logRet.out)]) ∧
    containsSub "Format attendu" (conventionWarning types (trimS env.logRet.out)) = true := by
  refine ⟨?_, conventionWarning_mentions_format types (trimS env.logRet.out)⟩
  have hred : check_git (gitCfgWith types) env w =
      (if ((staged_files_of env.stagedRet.out).isEmpty
            || staged_files_of env.stagedRet.out == [""]) = true then
         .ok ({ name := "Git", passed := false, message := "Aucun fichier staged",
                details := ["Utilisez 'git add' avant de committer"] }, w)
       else
         match pyIterStrs (.arr (types.map .str)) with
         | .error e => .error e
         | .ok allowed_types =>
           if (!strEmpty (last_message_of env.logRet.out)
               && !matchesConventional allowed_types (last_message_of env.logRet.out)) = true then
             .ok ({ name := "Git", passed := true, message := "Git OK" },
                  w ++ [conventionWarning allowed_types (last_message_of env.logRet.out)])
           else .ok ({ name := "Git", passed := true, message := "Git OK" }, w)) := rfl
  have hlast : last_message_of env.logRet.out = trimS env.logRet.out := by
    unfold last_message_of
    rw [if_pos (by simp [hout])]
  rw [hred, if_neg (by simp [hstaged]), pyIterStrs_map_str, hlast]
  simp [hmsg, hnomatch]

/-- C8 witness: the spec's scenario — staged file present, last message
"update stuff", allow-list `["feat","fix","docs"]`. -/
theorem convention_mismatch_witness :
    check_git (gitCfgWith ["feat", "fix", "docs"]) mismatchGitEnv []
      = .ok ({ name := "Git", passed := true, message := "Git OK" },
             [conventionWarning ["feat", "fix", "docs"] (trimS "update stuff\n")]) ∧
    containsSub "Format attendu"
      (conventionWarning ["feat", "fix", "docs"] (trimS "update stuff\n")) = true :=
  convention_mismatch_warns_nonblocking ["feat", "fix", "docs"] mismatchGitEnv []
    (by decide) (by decide) (by decide) (by decide)

/-- C8 counterexample: a last commit whose message is empty (as `git commit
--allow-empty-message` permits) does not match the pattern either, yet the
check appends no warning — the warning is guarded by `last_message` being
truthy (line 556). -/
theorem empty_message_no_warning_counterexample :
    matchesConventional ["feat", "fix", "docs"] "" = false ∧
    check_git (gitCfgWith ["feat", "fix", "docs"])
        { stagedRet := ⟨0, "file.py\n", ""⟩, logRet := ⟨0, "\n", ""⟩ } []
      = .ok ({ name := "Git", passed := true, message := "Git OK" }, []) :=
  ⟨by decide, rfl⟩

/-- C9 (code bug): `main` parses `--only` but never reads it — the check
list `run_all_checks` iterates is the fixed six-entry table whatever the
arguments say, so restricting to `security,tests` still evaluates every
check (all six indices appear in the trace of an all-passing run). -/
theorem only_flag_ignored_all_checks_run :
    checkNamesRun { only := some "security,tests" } = checkNamesRun { only := none } ∧
    checkNamesRun { only := some "security,tests" }
      = ["Linter", "Tests", "Django", "Sécurité", "Fichiers", "Git"] ∧
    run_all_checks true true false
        [passingSpec "Linter", passingSpec "Tests", passingSpec "Django",
         passingSpec "Sécurité", passingSpec "Fichiers", passingSpec "Git"]
      = .completed true { errors := [], warnings := [], fixes_applied := [],
                          evaluated := [0, 1, 2, 3, 4, 5], confirms := [], fixerCalls := [] } :=
  ⟨rfl, rfl, rfl⟩

/-- C10: a check whose configuration entry sets `enabled` to `false` returns
a passing "Désactivé" result whatever the environment (no tool invocation
can influence it), and a passing evaluation never contributes an error,
an abort or an `errors` entry in the loop. -/
theorem disabled_checks_always_pass (cfg : JVal)
    (h1 : jpath cfg ["checks", "linter", "enabled"] = .ok (.bool false))
    (h2 : jpath cfg ["checks", "tests", "enabled"] = .ok (.bool false))
    (h3 : jpath cfg ["checks", "django", "enabled"] = .ok (.bool false))
    (h4 : jpath cfg ["checks", "security", "enabled"] = .ok (.bool false))
    (h5 : jpath cfg ["checks", "files", "enabled"] = .ok (.bool false))
    (h6 : jpath cfg ["checks", "git", "enabled"] = .ok (.bool false)) :
    (∀ (iA aF : Bool) (env : LinterEnv), check_linter cfg iA aF env
        = .ok { name := "Linter", passed := true, message := "Désactivé" }) ∧
    (∀ env : TestsEnv, check_tests cfg env
        = .ok { name := "Tests", passed := true, message := "Désactivés" }) ∧
    (∀ (iA aF : Bool) (env : DjangoEnv) (f : List String), check_django cfg iA aF env f
        = .ok ({ name := "Django", passed := true, message := "Désactivé" }, f)) ∧
    (∀ env : SecurityEnv, check_security cfg env
        = .ok { name := "Sécurité", passed := true, message := "Désactivée" }) ∧
    (∀ env : FilesEnv, check_files cfg env
        = .ok { name := "Fichiers", passed := true, message := "Désactivé" }) ∧
    (∀ (env : GitEnv) (w : List String), check_git cfg env w
        = .ok ({ name := "Git", passed := true, message := "Désactivé" }, w)) ∧
    (∀ (aF iA : Bool) (i : Nat) (s : RunState) (c : CheckSpec), c.eval1.passed = true →
      runCheck1 aF iA i s c = .ok (noteEval i c.warns1 c.fixes1 s) ∧
      (noteEval i c.warns1 c.fixes1 s).errors = s.errors) := by
  refine ⟨?_, ?_, ?_, ?_, ?_, ?_, ?_⟩
  · intro iA aF env
    unfold check_linter
    rw [h1]
    rfl
  · intro env
    unfold check_tests
    rw [h2]
    rfl
  · intro iA aF env f
    unfold check_django
    rw [h3]
    rfl
  · intro env
    unfold check_security
    rw [h4]
    rfl
  · intro env
    unfold check_files
    rw [h5]
    rfl
  · intro env w
    unfold check_git
    rw [h6]
    rfl
  · intro aF iA i s c hp
    constructor
    · unfold runCheck1
      rw [if_pos hp]
    · rfl

/-- C10 witness: the all-disabled configuration at concrete environments. -/
theorem disabled_checks_pass_witness :
    check_linter allDisabledCfg true true plainLinterEnv
        = .ok { name := "Linter", passed := true, message := "Désactivé" } ∧
    check_security allDisabledCfg plainSecurityEnv
        = .ok { name := "Sécurité", passed := true, message := "Désactivée" } ∧
    check_git allDisabledCfg mismatchGitEnv []
        = .ok ({ name := "Git", passed := true, message := "Désactivé" }, []) :=
  ⟨(disabled_checks_always_pass allDisabledCfg rfl rfl rfl rfl rfl rfl).1 true true
     plainLinterEnv,
   (disabled_checks_always_pass allDisabledCfg rfl rfl rfl rfl rfl rfl).2.2.2.1
     plainSecurityEnv,
   (disabled_checks_always_pass allDisabledCfg rfl rfl rfl rfl rfl rfl).2.2.2.2.2.1
     mismatchGitEnv []⟩
